import Mathlib

/-!
Verification development for the phoenix-boutique offline-first order
management application.  The definitions below are a shallow embedding of
the TypeScript sources: pure functions become Lean functions, the
IndexedDB order store becomes explicit state passing over a list of raw
records, remote (Firebase) calls become an explicit environment of
oracles, and JavaScript strings are modelled as Lean strings (lists of
characters where character-level processing matters).  JavaScript
numbers are modelled as integers (the claims under consideration only
concern integral, finite values), and `undefined` field absence is
modelled with `Option`.
-/

namespace Phoenix

/-! ## Roles and permissions (src/frontend/src/rbac, unnamed part_000) -/

/-- Embeds `type Role = 'ADMIN' | 'STAFF'`. -/
inductive Role where
  | ADMIN
  | STAFF
  deriving Repr, DecidableEq

/-- Embeds the `Permissions` interface. -/
structure Permissions where
  canViewFinancials : Bool
  canEditFinancials : Bool
  canViewReports : Bool
  canViewAudit : Bool
  canExportData : Bool
  canDeleteOrders : Bool
  canManageStaff : Bool
  deriving Repr, DecidableEq

/-- Embeds `getPermissions(role)`. -/
def getPermissions (role : Role) : Permissions :=
  match role with
  | .ADMIN =>
    { canViewFinancials := true
      canEditFinancials := true
      canViewReports := true
      canViewAudit := true
      canExportData := true
      canDeleteOrders := true
      canManageStaff := true }
  | .STAFF =>
    { canViewFinancials := false
      canEditFinancials := false
      canViewReports := false
      canViewAudit := false
      canExportData := false
      canDeleteOrders := false
      canManageStaff := false }

/-! ## Payment calculations (services/paymentCalculations.ts) -/

/-- Embeds `PAYMENT_METHODS` / `validPaymentMethods`. -/
def validPaymentMethods : List String := ["Cash", "UPI", "Card", "Other"]

/-- Embeds `calculateBalance(priceTotal, advancePaid) = Math.max(0, priceTotal - advancePaid)`. -/
def calculateBalance (priceTotal advancePaid : Int) : Int :=
  max 0 (priceTotal - advancePaid)

/-- Embeds `derivePaymentStatus(priceTotal, advancePaid)`. -/
def derivePaymentStatus (priceTotal advancePaid : Int) : String :=
  if priceTotal = 0 ∨ advancePaid = 0 then "Unpaid"
  else if advancePaid ≥ priceTotal then "Paid"
  else "Partial"

/-- Embeds `validatePricing(priceTotal, advancePaid)`, returning the pair
`(priceTotalError, advancePaidError)`.  As in the source, the
`advancePaid > priceTotal` check overwrites a previous negative-value
error message. -/
def validatePricing (priceTotal advancePaid : Int) :
    Option String × Option String :=
  let priceTotalError : Option String :=
    if priceTotal < 0 then some "Total price must be 0 or greater" else none
  let advancePaidError : Option String :=
    if advancePaid < 0 then some "Advance paid must be 0 or greater" else none
  let advancePaidError : Option String :=
    if advancePaid > priceTotal then some "Advance paid cannot exceed total price"
    else advancePaidError
  (priceTotalError, advancePaidError)

/-! ## JavaScript helper semantics -/

/-- JavaScript truthiness of a nullable string (`null`/`undefined` and the
empty string are falsy). -/
def jsStrTruthy : Option String → Bool
  | none => false
  | some s => s ≠ ""

/-- JavaScript `x || dflt` on a nullable string. -/
def jsStrOr (x : Option String) (dflt : String) : String :=
  match x with
  | none => dflt
  | some s => if s = "" then dflt else s

/-- JavaScript truthiness of a nullable number (`null`/`undefined` and `0`
are falsy); used for the `if (order.id)` guards. -/
def jsNumTruthy : Option Nat → Bool
  | none => false
  | some n => n ≠ 0

/-- JavaScript `String.prototype.trim`: strip leading and trailing
whitespace. -/
def jsTrim (s : String) : String :=
  String.mk (((s.data.dropWhile Char.isWhitespace).reverse.dropWhile
    Char.isWhitespace).reverse)

/-! ## Attachment encoder (orderImagesLocal.ts, unnamed part_008)

Binary data is modelled as a list of byte values; a JavaScript `Blob` is
its byte contents together with its MIME type string. -/

abbrev Bytes := List Nat

/-- Models a JavaScript `Blob` as constructed by `new Blob([u8arr], { type: mime })`. -/
structure Blob where
  type : String
  bytes : Bytes
  deriving Repr, DecidableEq

/-- The standard base64 alphabet in index order. -/
def b64Alphabet : List Char :=
  ['A', 'B', 'C', 'D', 'E', 'F', 'G', 'H', 'I', 'J', 'K', 'L', 'M',
   'N', 'O', 'P', 'Q', 'R', 'S', 'T', 'U', 'V', 'W', 'X', 'Y', 'Z',
   'a', 'b', 'c', 'd', 'e', 'f', 'g', 'h', 'i', 'j', 'k', 'l', 'm',
   'n', 'o', 'p', 'q', 'r', 's', 't', 'u', 'v', 'w', 'x', 'y', 'z',
   '0', '1', '2', '3', '4', '5', '6', '7', '8', '9', '+', '/']

/-- The base64 character for a six-bit value. -/
def sextetToChar (n : Nat) : Char := b64Alphabet.getD n 'A'

/-- The six-bit value of a base64 character, or `none` for a character
outside the alphabet. -/
def charToSextet (c : Char) : Option Nat := b64Alphabet.findIdx? (· = c)

/-- Six-bit groups of a byte sequence (base64 without padding). -/
def encodeSextets : Bytes → List Nat
  | [] => []
  | [a] => [a / 4, a % 4 * 16]
  | [a, b] => [a / 4, a % 4 * 16 + b / 16, b % 16 * 4]
  | a :: b :: c :: rest =>
      a / 4 :: (a % 4 * 16 + b / 16) :: (b % 16 * 4 + c / 64) :: c % 64 ::
        encodeSextets rest

/-- Base64 padding characters for a byte sequence of the given length. -/
def b64Pad (len : Nat) : List Char :=
  match len % 3 with
  | 1 => ['=', '=']
  | 2 => ['=']
  | _ => []

/-- Standard base64 encoding of a byte sequence, with padding. -/
def b64EncodeChars (bs : Bytes) : List Char :=
  (encodeSextets bs).map sextetToChar ++ b64Pad bs.length

/-- ASCII whitespace, which the forgiving-base64 decoder removes. -/
def isB64Ws (c : Char) : Bool :=
  c = ' ' || c = '\t' || c = '\n' || c = '\r' || c = '\x0C'

/-- Remove one or two trailing `=` characters. -/
def dropTrailingEq (l : List Char) : List Char :=
  match l.reverse with
  | '=' :: '=' :: rest => rest.reverse
  | '=' :: rest => rest.reverse
  | _ => l

/-- Padding removal step of forgiving-base64: trailing `=` signs are
removed only when the length is a multiple of four. -/
def stripB64Pad (l : List Char) : List Char :=
  if l.length % 4 = 0 then dropTrailingEq l else l

/-- Reassemble bytes from six-bit groups (a trailing group of one sextet
cannot arise because the decoder rejects lengths `≡ 1 [MOD 4]`). -/
def sextetsToBytes : List Nat → Bytes
  | s1 :: s2 :: s3 :: s4 :: rest =>
      (s1 * 4 + s2 / 16) :: (s2 % 16 * 16 + s3 / 4) :: (s3 % 4 * 64 + s4) ::
        sextetsToBytes rest
  | [s1, s2, s3] => [s1 * 4 + s2 / 16, s2 % 16 * 16 + s3 / 4]
  | [s1, s2] => [s1 * 4 + s2 / 16]
  | _ => []

/-- Models the platform `atob` used by `dataUrlToBlob`, composed with the
byte-extraction loop (`u8arr[n] = bstr.charCodeAt(n)`): forgiving-base64
decoding of a string into bytes, failing on malformed input exactly when
`atob` raises `InvalidCharacterError`. -/
def atob (input : List Char) : Except String Bytes :=
  let data := (input.filter (fun c => !(isB64Ws c)))
  let data := stripB64Pad data
  if data.length % 4 = 1 then .error "InvalidCharacterError"
  else
    match data.mapM charToSextet with
    | none => .error "InvalidCharacterError"
    | some sextets => .ok (sextetsToBytes sextets)

/-- JavaScript `String.prototype.split` on a single separator character. -/
def splitOnChar (sep : Char) : List Char → List (List Char)
  | [] => [[]]
  | c :: rest =>
    if c = sep then [] :: splitOnChar sep rest
    else
      match splitOnChar sep rest with
      | [] => [[c]]
      | h :: t => (c :: h) :: t

/-- The capture of `/:(.*?);/` on a character list: the leftmost match
takes the first `:` that is followed by a `;`, capturing the characters
between that `:` and the first subsequent `;`. -/
def extractMime : List Char → Option (List Char)
  | [] => none
  | c :: rest =>
    if c = ':' then
      if rest.contains ';' then some (rest.takeWhile (fun x => x != ';'))
      else none
    else extractMime rest

/-- The `arr[0].match(/:(.*?);/)?.[1] || 'image/jpeg'` expression: the
captured MIME type, defaulting when the marker is missing or the capture
is empty (both are falsy). -/
def defaultedMime (head : List Char) : List Char :=
  match extractMime head with
  | none => "image/jpeg".data
  | some m => if m = [] then "image/jpeg".data else m

/-- Embeds `dataUrlToBlob(dataUrl)` over character lists: split on commas,
extract the MIME type from the part before the first comma (defaulting to
`image/jpeg` when the marker is missing or captures an empty string), and
base64-decode the part after it.  When the input has no comma, `arr[1]`
is `undefined` in the source and `atob` coerces it to the nine-character
string `"undefined"` before rejecting it. -/
def dataUrlToBlobCore (dataUrl : List Char) : Except String Blob :=
  let arr := splitOnChar ',' dataUrl
  let mime : List Char := defaultedMime (arr.headD [])
  let payload := arr.getD 1 "undefined".data
  match atob payload with
  | .error e => .error e
  | .ok bs => .ok { type := String.mk mime, bytes := bs }

/-- Embeds `dataUrlToBlob` at the string level. -/
def dataUrlToBlob (dataUrl : String) : Except String Blob :=
  dataUrlToBlobCore dataUrl.data

/-- Models the platform encoder behind `fileToDataUrl` in the source
(`FileReader.readAsDataURL`), which is not part of the repository.
Modelled from the spec: `encode(binaryInput) -> localRepresentation`
produces the self-describing text encoding `data:<mime>;base64,<payload>`
with the standard base64 payload. -/
def fileToDataUrl (bytes : Bytes) (mime : String) : String :=
  String.mk ("data:".data ++ mime.data ++ ";base64,".data ++ b64EncodeChars bytes)

/-! ## Data model (services/ordersRepository.ts)

`RawOrder` is the stored (IndexedDB) shape of an order record, where
`Option` on a field models the field being `undefined`/absent (for
nullable fields such as `cloudId` the outer `Option` is presence and the
inner `Option` is the `null` value).  `Order` is the normalized shape the
repository returns from every read. -/

/-- Embeds the `PaymentHistoryEntry` interface. -/
structure PaymentHistoryEntry where
  timestamp : String
  changeType : String
  amountChanged : Option Int
  resultingAdvancePaid : Int
  paymentMethod : Option String
  auditNote : Option String
  deriving Repr, DecidableEq

/-- A stored order record as it sits in the `orders` object store. -/
structure RawOrder where
  id : Option Nat
  orderId : String
  customerName : String
  bookingDate : String
  deliveryDate : String
  measurements : String
  productDetails : String
  images : List String
  status : String
  deliveredAt : Option String
  createdAt : String
  priceTotal : Option Int
  advancePaid : Option Int
  balanceAmount : Option Int
  paymentStatus : Option String
  paymentMethod : Option String
  notes : Option String
  paymentHistory : Option (List PaymentHistoryEntry)
  cloudId : Option (Option String)
  syncStatus : Option String
  lastSyncedAt : Option (Option String)
  remoteId : Option (Option String)
  syncState : Option String
  imageStorageUrls : Option (List (Option String))
  deriving Repr, DecidableEq

/-- A normalized order, the `Order` interface as produced by
`normalizeOrder` (every derived/enumerated field repaired and every sync
field defaulted). -/
structure Order where
  id : Option Nat
  orderId : String
  customerName : String
  bookingDate : String
  deliveryDate : String
  measurements : String
  productDetails : String
  images : List String
  status : String
  deliveredAt : Option String
  createdAt : String
  priceTotal : Int
  advancePaid : Int
  balanceAmount : Int
  paymentStatus : String
  paymentMethod : String
  notes : String
  paymentHistory : List PaymentHistoryEntry
  cloudId : Option String
  syncStatus : String
  lastSyncedAt : Option String
  remoteId : Option String
  syncState : String
  imageStorageUrls : List (Option String)
  deriving Repr, DecidableEq

/-- Embeds `normalizeOrder(order)`: clamp the money fields (a missing
field coerces to `0` via `Number(undefined) || 0`), recompute
`balanceAmount` and `paymentStatus`, validate `paymentMethod` against
the fixed enumeration, coerce `paymentHistory` to an array, and default
all sync tracking fields. -/
def normalizeOrder (order : RawOrder) : Order :=
  let priceTotal : Int := max 0 (order.priceTotal.getD 0)
  let advancePaid : Int := max 0 (order.advancePaid.getD 0)
  let balanceAmount : Int := max 0 (priceTotal - advancePaid)
  let paymentStatus : String :=
    if priceTotal = 0 ∨ advancePaid = 0 then "Unpaid"
    else if advancePaid ≥ priceTotal then "Paid"
    else "Partial"
  let paymentMethod : String :=
    match order.paymentMethod with
    | some m => if m ∈ validPaymentMethods then m else "Cash"
    | none => "Cash"
  { id := order.id
    orderId := order.orderId
    customerName := order.customerName
    bookingDate := order.bookingDate
    deliveryDate := order.deliveryDate
    measurements := order.measurements
    productDetails := order.productDetails
    images := order.images
    status := order.status
    deliveredAt := order.deliveredAt
    createdAt := order.createdAt
    priceTotal := priceTotal
    advancePaid := advancePaid
    balanceAmount := balanceAmount
    paymentStatus := paymentStatus
    paymentMethod := paymentMethod
    notes := (order.notes.getD "")
    paymentHistory := order.paymentHistory.getD []
    cloudId := order.cloudId.getD none
    syncStatus := jsStrOr order.syncStatus "pending"
    lastSyncedAt := order.lastSyncedAt.getD none
    remoteId := order.remoteId.getD none
    syncState := jsStrOr order.syncState "pending"
    imageStorageUrls := order.imageStorageUrls.getD [] }

/-! ## Local store and repository operations -/

/-- The `orders` object store: the list of stored records, in storage
order. -/
abbrev OrderStore := List RawOrder

/-- Key lookup `store.get(id)`. -/
def findOrder (st : OrderStore) (id : Nat) : Option RawOrder :=
  st.find? (fun r => r.id = some id)

/-- Key-preserving `store.put(record)` for a record whose key is already
present: replaces the record stored under `id`. -/
def putOrder (st : OrderStore) (id : Nat) (r : RawOrder) : OrderStore :=
  st.map (fun x => if x.id = some id then r else x)

/-- The next auto-increment key. -/
def nextOrderId (st : OrderStore) : Nat :=
  (st.filterMap (fun r => r.id)).foldr max 0 + 1

/-- Embeds `createOrder(order)`: `store.add` assigns a fresh
auto-increment key (the screens never pass an `id`) and persists the
record as given, with no validation of any field. -/
def createOrder (st : OrderStore) (order : RawOrder) : Except String OrderStore :=
  let key := order.id.getD (nextOrderId st)
  if (findOrder st key).isSome then .error "Failed to create order"
  else .ok (st ++ [{ order with id := some key }])

/-- The partial update objects passed to `updateOrder` by the call sites
in scope (the sync orchestrator and the delivery-status transition);
`some` on a field models the field being present on the `updates`
object. -/
structure OrderPatch where
  status : Option String := none
  remoteId : Option (Option String) := none
  lastSyncedAt : Option (Option String) := none
  syncState : Option String := none
  syncStatus : Option String := none
  imageStorageUrls : Option (List (Option String)) := none
  deriving Repr, DecidableEq

/-- Embeds `updateOrder(id, updates)`: read the existing record, spread
`updates` over it, stamp `deliveredAt` on a transition to `Delivered`,
and then unconditionally overwrite `syncStatus` and `syncState` with
`'pending'` (the object literal places these after the spread of
`updates`, so they clobber any value the caller passed).  `nowMs` stands
for `Date.now().toString()`. -/
def updateOrder (st : OrderStore) (id : Nat) (u : OrderPatch) (nowMs : String) :
    Except String OrderStore :=
  match findOrder st id with
  | none => .error "Order not found"
  | some existing =>
    let merged : RawOrder :=
      { existing with
        id := some id
        status := u.status.getD existing.status
        remoteId := match u.remoteId with
          | some v => some v
          | none => existing.remoteId
        lastSyncedAt := match u.lastSyncedAt with
          | some v => some v
          | none => existing.lastSyncedAt
        imageStorageUrls := match u.imageStorageUrls with
          | some v => some v
          | none => existing.imageStorageUrls
        deliveredAt :=
          if u.status = some "Delivered" ∧ existing.status ≠ "Delivered"
          then some nowMs else existing.deliveredAt
        syncStatus := some "pending"
        syncState := some "pending" }
    .ok (putOrder st id merged)

/-! ## Schema migrations (services/localDb.ts) -/

/-- Embeds `DB_VERSION = 3` (bumped for the payment-history migration;
there are no later migration steps in the source). -/
def dbVersion : Nat := 3

/-- The version-2 migration step on one record: backfill the pricing and
payment fields, only where absent. -/
def migrateV2 (order : RawOrder) : RawOrder :=
  { order with
    priceTotal := some (order.priceTotal.getD 0)
    advancePaid := some (order.advancePaid.getD 0)
    balanceAmount := some (order.balanceAmount.getD 0)
    paymentStatus := some (order.paymentStatus.getD "Unpaid")
    paymentMethod := some (order.paymentMethod.getD "Cash")
    notes := some (order.notes.getD "") }

/-- The version-3 migration step on one record: backfill an empty
`paymentHistory` where the field is not an array. -/
def migrateV3 (order : RawOrder) : RawOrder :=
  { order with paymentHistory := some (order.paymentHistory.getD []) }

/-- Embeds the `onupgradeneeded` handler of `initDb`: opening the store
at version `dbVersion` from `oldVersion` applies each migration step in
order to every stored record. -/
def migrateStore (oldVersion : Nat) (st : OrderStore) : OrderStore :=
  let st := if oldVersion < 2 then st.map migrateV2 else st
  if oldVersion < 3 then st.map migrateV3 else st

/-! ## Firestore payload pipeline (services/ordersSyncService.ts and
firebase/firestoreOrders.ts)

`POrder` is a `Partial<Order>`: `some` marks a field as present on the
object (for nullable fields the inner `Option` is the `null` value). -/

/-- A `Partial<Order>` value, as produced by `sanitizeOrderForSync`. -/
structure POrder where
  id : Option Nat := none
  orderId : Option String := none
  customerName : Option String := none
  bookingDate : Option String := none
  deliveryDate : Option String := none
  measurements : Option String := none
  productDetails : Option String := none
  images : Option (List String) := none
  status : Option String := none
  deliveredAt : Option (Option String) := none
  createdAt : Option String := none
  priceTotal : Option Int := none
  advancePaid : Option Int := none
  balanceAmount : Option Int := none
  paymentStatus : Option String := none
  paymentMethod : Option String := none
  notes : Option String := none
  paymentHistory : Option (List PaymentHistoryEntry) := none
  cloudId : Option (Option String) := none
  syncStatus : Option String := none
  lastSyncedAt : Option (Option String) := none
  remoteId : Option (Option String) := none
  syncState : Option String := none
  imageStorageUrls : Option (List (Option String)) := none
  deriving Repr, DecidableEq

/-- View of a fully normalized order as a partial object with every
field present (the spread `{...order}` of a normalized `Order`). -/
def Order.toPartial (o : Order) : POrder :=
  { id := o.id
    orderId := some o.orderId
    customerName := some o.customerName
    bookingDate := some o.bookingDate
    deliveryDate := some o.deliveryDate
    measurements := some o.measurements
    productDetails := some o.productDetails
    images := some o.images
    status := some o.status
    deliveredAt := some o.deliveredAt
    createdAt := some o.createdAt
    priceTotal := some o.priceTotal
    advancePaid := some o.advancePaid
    balanceAmount := some o.balanceAmount
    paymentStatus := some o.paymentStatus
    paymentMethod := some o.paymentMethod
    notes := some o.notes
    paymentHistory := some o.paymentHistory
    cloudId := some o.cloudId
    syncStatus := some o.syncStatus
    lastSyncedAt := some o.lastSyncedAt
    remoteId := some o.remoteId
    syncState := some o.syncState
    imageStorageUrls := some o.imageStorageUrls }

/-- Embeds `sanitizeOrderForSync(order, userRole)`: for the STAFF role
the five financial fields are removed from the object by destructuring
(they become absent); the ADMIN role keeps every field. -/
def sanitizeOrderForSync (order : Order) (userRole : Role) : POrder :=
  match userRole with
  | .STAFF =>
    { order.toPartial with
      priceTotal := none
      advancePaid := none
      balanceAmount := none
      paymentStatus := none
      paymentMethod := none }
  | .ADMIN => order.toPartial

/-- The Firestore document data assembled by `uploadOrderToFirestore`
(`some` marks a key as present on the transmitted document). -/
structure FirestoreData where
  userId : String
  lastSyncedAt : String
  orderId : Option String := none
  customerName : Option String := none
  bookingDate : Option String := none
  deliveryDate : Option String := none
  measurements : Option String := none
  productDetails : Option String := none
  status : Option String := none
  deliveredAt : Option (Option String) := none
  createdAt : Option String := none
  priceTotal : Option Int := none
  advancePaid : Option Int := none
  balanceAmount : Option Int := none
  paymentStatus : Option String := none
  paymentMethod : Option String := none
  notes : Option String := none
  paymentHistory : Option (List PaymentHistoryEntry) := none
  imageUrls : Option (List (Option String)) := none
  localId : Option Nat := none
  deriving Repr, DecidableEq

/-- The payload-assembly half of `uploadOrderToFirestore`: each key of
the document is set only when the corresponding field is present
(`!== undefined`) on the partial order; `nowIso` stands for
`new Date().toISOString()`. -/
def buildFirestoreData (order : POrder) (userId : String) (nowIso : String) :
    FirestoreData :=
  { userId := userId
    lastSyncedAt := nowIso
    orderId := order.orderId
    customerName := order.customerName
    bookingDate := order.bookingDate
    deliveryDate := order.deliveryDate
    measurements := order.measurements
    productDetails := order.productDetails
    status := order.status
    deliveredAt := order.deliveredAt
    createdAt := order.createdAt
    priceTotal := order.priceTotal
    advancePaid := order.advancePaid
    balanceAmount := order.balanceAmount
    paymentStatus := order.paymentStatus
    paymentMethod := order.paymentMethod
    notes := order.notes
    paymentHistory := order.paymentHistory
    imageUrls := order.imageStorageUrls
    localId := order.id }

/-! ## Sync orchestrator (services/ordersSyncService.ts) -/

/-- Embeds the `ImageUploadResult` returned by `uploadImageToStorage`. -/
structure ImageUploadResult where
  success : Bool
  url : Option String := none
  error : Option String := none
  deriving Repr, DecidableEq

/-- The remote backend of one sync pass: the image-storage uploader, the
Firestore record writer (returning the assigned document id or throwing
a message), and the clock readings used by the pass. -/
structure SyncEnv where
  uploadImage : Blob → String → String → Nat → ImageUploadResult
  uploadRecord : FirestoreData → Option String → Except String String
  nowIso : String
  nowMs : String

/-- Embeds `canStaffSyncOrder(order, userId)`: a STAFF caller may sync an
order only when it has never been assigned either remote identifier. -/
def canStaffSyncOrder (order : Order) (_userId : String) : Bool :=
  !(jsStrTruthy order.remoteId) && !(jsStrTruthy order.cloudId)

/-- The `localOrder.remoteId || undefined` argument passed to
`uploadOrderToFirestore`. -/
def remoteIdArg (order : Order) : Option String :=
  match order.remoteId with
  | some s => if s = "" then none else some s
  | none => none

/-- Embeds `syncOrderToCloud(localOrder, context)`; the returned payload
records what was handed to the Firestore writer (it is `none` when the
STAFF attribution check threw before any transmission).  Errors from the
Firestore writer carry the wrapper message added by
`uploadOrderToFirestore`. -/
def syncOrderToCloud (env : SyncEnv) (userId : String) (userRole : Role)
    (localOrder : Order) : Except String String × Option FirestoreData :=
  if userRole = .STAFF ∧ canStaffSyncOrder localOrder userId = false then
    (.error "STAFF users can only sync orders they created", none)
  else
    let payload := buildFirestoreData (sanitizeOrderForSync localOrder userRole)
      userId env.nowIso
    match env.uploadRecord payload (remoteIdArg localOrder) with
    | .ok rid => (.ok rid, some payload)
    | .error e =>
        (.error ("Failed to upload order to Firestore: " ++ e), some payload)

/-- JavaScript sparse-array index assignment `urls[i] = v` (extending the
array with holes when `i` is past the end). -/
def setUrlAt (urls : List (Option String)) (i : Nat) (v : String) :
    List (Option String) :=
  if i < urls.length then urls.set i (some v)
  else urls ++ List.replicate (i - urls.length) none ++ [some v]

/-- The image-upload loop of a sync pass over the remaining
`(index, image)` pairs: an index with a recorded URL is skipped without
consulting the uploader; otherwise the data URL is decoded and uploaded.
The error value carries the failing index and the thrown message. -/
def imagesStep (env : SyncEnv) (userId orderCode : String) :
    List (Nat × String) → List (Option String) →
    Except (Nat × String) (List (Option String))
  | [], urls => .ok urls
  | (i, img) :: rest, urls =>
    if jsStrTruthy (urls.getD i none) then
      imagesStep env userId orderCode rest urls
    else
      match dataUrlToBlob img with
      | .error e => .error (i, e)
      | .ok blob =>
        let res := env.uploadImage blob userId orderCode i
        if res.success && jsStrTruthy res.url then
          imagesStep env userId orderCode rest
            (setUrlAt urls i ((res.url).getD ""))
        else .error (i, jsStrOr res.error "Image upload failed")

/-- What processing one order contributes to the pass: the store after
the order's local writes, the increment of the uploaded counter, the
error messages appended, and the payloads handed to the record writer. -/
structure OrderOutcome where
  store : OrderStore
  uploadedInc : Nat
  errs : List String
  sent : List FirestoreData
  deriving Repr

/-- The body of the per-order loop of `syncOrders` for one eligible
order (steps 1a–1d with their `try`/`catch` structure): an image failure
appends the image error, rethrows, and the outer handler appends the
order error; the URL list is written back only after every image
succeeded; the record upload and the final metadata write each feed the
outer handler on failure. -/
def processEligibleOrder (env : SyncEnv) (userId : String) (userRole : Role)
    (st : OrderStore) (o : Order) : OrderOutcome :=
  if userRole = .STAFF ∧ canStaffSyncOrder o userId = false then
    { store := st, uploadedInc := 0
      errs := ["Skipped order " ++ o.orderId ++
        ": STAFF users can only sync orders they created"]
      sent := [] }
  else
    match imagesStep env userId o.orderId o.images.enum o.imageStorageUrls with
    | .error (i, e) =>
      { store := st, uploadedInc := 0
        errs := ["Failed to upload image " ++ toString i ++ " for order " ++
            o.orderId ++ ": " ++ e,
          "Failed to sync order " ++ o.orderId ++ ": " ++ e]
        sent := [] }
    | .ok urls =>
      let step1b : Except String OrderStore :=
        if jsNumTruthy o.id ∧ urls.length > 0 then
          updateOrder st (o.id.getD 0) { imageStorageUrls := some urls } env.nowMs
        else .ok st
      match step1b with
      | .error e =>
        { store := st, uploadedInc := 0
          errs := ["Failed to sync order " ++ o.orderId ++ ": " ++ e]
          sent := [] }
      | .ok st1 =>
        let orderWithImages := { o with imageStorageUrls := urls }
        match syncOrderToCloud env userId userRole orderWithImages with
        | (.error e, sentPayload) =>
          { store := st1, uploadedInc := 0
            errs := ["Failed to sync order " ++ o.orderId ++ ": " ++ e]
            sent := sentPayload.toList }
        | (.ok rid, sentPayload) =>
          let step1d : Except String OrderStore :=
            if jsNumTruthy o.id then
              updateOrder st1 (o.id.getD 0)
                { remoteId := some (some rid)
                  lastSyncedAt := some (some env.nowIso)
                  syncState := some "synced" } env.nowMs
            else .ok st1
          match step1d with
          | .error e =>
            { store := st1, uploadedInc := 0
              errs := ["Failed to sync order " ++ o.orderId ++ ": " ++ e]
              sent := sentPayload.toList }
          | .ok st2 =>
            { store := st2, uploadedInc := 1, errs := []
              sent := sentPayload.toList }

/-- Processing one order of the snapshot: an order that is already
synced (`remoteId` truthy and `syncState` not `'pending'`) is passed
over entirely. -/
def processOrder (env : SyncEnv) (userId : String) (userRole : Role)
    (st : OrderStore) (o : Order) : OrderOutcome :=
  if !(jsStrTruthy o.remoteId) || o.syncState = "pending" then
    processEligibleOrder env userId userRole st o
  else
    { store := st, uploadedInc := 0, errs := [], sent := [] }

/-- The running state of a sync pass. -/
structure PassAcc where
  store : OrderStore
  uploaded : Nat
  errors : List String
  sent : List FirestoreData
  deriving Repr

/-- One iteration of the `for (const order of localOrders)` loop. -/
def syncStep (env : SyncEnv) (userId : String) (userRole : Role)
    (acc : PassAcc) (o : Order) : PassAcc :=
  let r := processOrder env userId userRole acc.store o
  { store := r.store
    uploaded := acc.uploaded + r.uploadedInc
    errors := acc.errors ++ r.errs
    sent := acc.sent ++ r.sent }

/-- Embeds the `SyncResult` interface. -/
structure SyncResult where
  success : Bool
  uploaded : Nat
  downloaded : Nat
  errors : List String
  deriving Repr, DecidableEq

/-- Embeds the `SyncStatus` record persisted by the sync status store. -/
structure SyncStatus where
  lastSyncTime : Option String
  lastSyncResult : Option String
  lastSyncMessage : Option String
  deriving Repr, DecidableEq

/-- Everything a sync pass produces: its returned `SyncResult`, the
final local store, the transmitted payloads, and the persisted
last-sync-status record. -/
structure SyncOutcome where
  result : SyncResult
  store : OrderStore
  sent : List FirestoreData
  status : SyncStatus
  deriving Repr

/-- Embeds `syncOrders(userId, userRole)` over an initialized store: read
and normalize the snapshot, process each order in storage order (one
order's failure never aborts the pass), set the overall success flag only
when the error list is empty, and persist the last-sync status (the
download path of the source is commented out, so `downloaded` stays 0). -/
def syncOrders (env : SyncEnv) (userId : String) (userRole : Role)
    (st : OrderStore) : SyncOutcome :=
  let localOrders := st.map normalizeOrder
  let fin := localOrders.foldl (syncStep env userId userRole)
    { store := st, uploaded := 0, errors := [], sent := [] }
  let success := fin.errors.isEmpty
  let status : SyncStatus :=
    if success then
      { lastSyncTime := some env.nowIso
        lastSyncResult := some "success"
        lastSyncMessage := some ("Successfully synced " ++
          toString fin.uploaded ++ " order" ++
          (if fin.uploaded ≠ 1 then "s" else "")) }
    else
      { lastSyncTime := some env.nowIso
        lastSyncResult := some "error"
        lastSyncMessage := some (String.intercalate "; " fin.errors) }
  let result : SyncResult :=
    { success := success
      uploaded := fin.uploaded
      downloaded := 0
      errors := fin.errors }
  { result := result
    store := fin.store
    sent := fin.sent
    status := status }

/-! ## New Order screen submit flow (screens/NewOrderScreen.tsx)

The form's numeric inputs are modelled by their parsed values
(`parseFloat(x) || 0`); a date picker value is `some` of its timestamp
string when chosen. -/

/-- The form state of the New Order screen that `handleSubmit` reads. -/
structure NewOrderForm where
  customerName : String
  bookingDate : Option String
  deliveryDate : Option String
  measurements : String
  productDetails : String
  priceTotalInput : Int
  advancePaidInput : Int
  paymentMethod : String
  notes : String
  deriving Repr, DecidableEq

/-- Embeds `handleSubmit` of the New Order screen: each required text
field is checked after trimming, pricing is validated only when the role
may edit financials (otherwise both amounts are forced to 0), and only
then is `createOrder` called with the derived balance and status; an
error return means nothing was persisted.  `nowMs` stands for
`Date.now().toString()`. -/
def handleSubmit (perms : Permissions) (form : NewOrderForm) (nowMs : String)
    (st : OrderStore) : Except String OrderStore :=
  let priceTotalNum : Int :=
    if perms.canEditFinancials then form.priceTotalInput else 0
  let advancePaidNum : Int :=
    if perms.canEditFinancials then form.advancePaidInput else 0
  let validation := validatePricing priceTotalNum advancePaidNum
  if jsTrim form.customerName = "" then .error "Customer name is required"
  else if form.bookingDate = none then .error "Booking date is required"
  else if form.deliveryDate = none then .error "Delivery date is required"
  else if jsTrim form.measurements = "" then .error "Measurements are required"
  else if jsTrim form.productDetails = "" then .error "Product details are required"
  else if perms.canEditFinancials ∧
      (validation.1.isSome ∨ validation.2.isSome) then
    .error "Please fix pricing errors"
  else
    createOrder st
      { id := none
        orderId := "ORD-" ++ nowMs
        customerName := jsTrim form.customerName
        bookingDate := form.bookingDate.getD ""
        deliveryDate := form.deliveryDate.getD ""
        measurements := jsTrim form.measurements
        productDetails := jsTrim form.productDetails
        images := []
        status := "Pending"
        deliveredAt := none
        createdAt := nowMs
        priceTotal := some priceTotalNum
        advancePaid := some advancePaidNum
        balanceAmount := some (calculateBalance priceTotalNum advancePaidNum)
        paymentStatus := some (derivePaymentStatus priceTotalNum advancePaidNum)
        paymentMethod := some form.paymentMethod
        notes := some (jsTrim form.notes)
        paymentHistory := some []
        cloudId := some none
        syncStatus := some "pending"
        lastSyncedAt := some none
        remoteId := none
        syncState := none
        imageStorageUrls := none }

/-! ## Statement-level predicates and spec-side comparators -/

/-- Spec-side statement of the payment-status rule, written from the
spec's words for comparison with the code's derivation: `Unpaid` if
total = 0 or paid = 0; `Paid` if paid ≥ total; else `Partial`. -/
def specPaymentStatus (total paid : Int) : String :=
  if total = 0 ∨ paid = 0 then "Unpaid"
  else if paid ≥ total then "Paid"
  else "Partial"

/-- A transmitted document carries none of the five financial keys. -/
def Redacted (p : FirestoreData) : Prop :=
  p.priceTotal = none ∧ p.advancePaid = none ∧ p.balanceAmount = none ∧
  p.paymentStatus = none ∧ p.paymentMethod = none

instance (p : FirestoreData) : Decidable (Redacted p) := by
  unfold Redacted; infer_instance

/-- Some record is stored under key `i`. -/
def HasId (st : OrderStore) (i : Nat) : Prop :=
  ∃ r ∈ st, r.id = some i

instance (st : OrderStore) (i : Nat) : Decidable (HasId st i) := by
  unfold HasId; infer_instance

/-- A snapshot order the pass will upload without error against any
store containing its record: it is eligible, it passes the STAFF
attribution gate, it has a usable local key, its images all upload, and
the record write succeeds. -/
def UploadSucceeds (env : SyncEnv) (userId : String) (userRole : Role)
    (o : Order) : Prop :=
  (!(jsStrTruthy o.remoteId) || decide (o.syncState = "pending")) = true ∧
  (userRole = .STAFF → canStaffSyncOrder o userId = true) ∧
  (∃ i, o.id = some i ∧ i ≠ 0) ∧
  ∃ urls rid,
    imagesStep env userId o.orderId o.images.enum o.imageStorageUrls = .ok urls ∧
    env.uploadRecord
      (buildFirestoreData
        (sanitizeOrderForSync { o with imageStorageUrls := urls } userRole)
        userId env.nowIso)
      (remoteIdArg { o with imageStorageUrls := urls }) = .ok rid

/-! ## Concrete sample data used by witnesses and counterexamples -/

/-- A well-formed stored order that has never been synced. -/
def sampleOrder : RawOrder :=
  { id := some 1, orderId := "A", customerName := "c", bookingDate := "b",
    deliveryDate := "d", measurements := "m", productDetails := "p",
    images := [], status := "Pending", deliveredAt := none, createdAt := "t0",
    priceTotal := some 100, advancePaid := some 40, balanceAmount := some 60,
    paymentStatus := some "Partial", paymentMethod := some "Cash",
    notes := some "n", paymentHistory := some [], cloudId := some none,
    syncStatus := some "pending", lastSyncedAt := some none,
    remoteId := none, syncState := none, imageStorageUrls := none }

/-- A second unsynced order under key 2. -/
def sampleOrderB : RawOrder := { sampleOrder with id := some 2, orderId := "B" }

/-- `sampleOrder` with one locally stored image. -/
def sampleOrderOneImage : RawOrder :=
  { sampleOrder with images := ["data:image/png;base64,QUJD"] }

/-- `sampleOrder` with two locally stored images. -/
def sampleOrderTwoImages : RawOrder :=
  { sampleOrder with
    images := ["data:image/png;base64,QUJD", "data:image/png;base64,REVG"] }

/-- A remote backend where every upload succeeds. -/
def envAllOk : SyncEnv :=
  { uploadImage := fun _ _ _ i =>
      { success := true, url := some ("url" ++ toString i) }
    uploadRecord := fun _ _ => .ok "cloud1"
    nowIso := "T1", nowMs := "1000" }

/-- A backend whose image storage rejects every image of order `A`. -/
def envImageFailA : SyncEnv :=
  { envAllOk with uploadImage := fun _ _ code i =>
      if code = "A" then { success := false, error := some "network down" }
      else { success := true, url := some ("url" ++ toString i) } }

/-- A backend whose image storage accepts index 0 and rejects index 1. -/
def envImageFailSecond : SyncEnv :=
  { envAllOk with uploadImage := fun _ _ _ i =>
      if i = 0 then { success := true, url := some "url0" }
      else { success := false, error := some "boom" } }

/-- A backend whose image storage works but whose record writer throws. -/
def envRecordFail : SyncEnv :=
  { envAllOk with uploadRecord := fun _ _ => .error "firestore down" }

/-- A create input violating both validation rules of the claim: the
paid amount exceeds the total and the customer name trims to empty. -/
def invalidCreateInput : RawOrder :=
  { sampleOrder with
    id := none
    customerName := "  "
    priceTotal := some 100
    advancePaid := some 200 }

/-- A v1 stored record: none of the fields introduced by later schema
versions is present. -/
def v1Record : RawOrder :=
  { id := some 1, orderId := "A", customerName := "c", bookingDate := "b",
    deliveryDate := "d", measurements := "m", productDetails := "p",
    images := [], status := "Pending", deliveredAt := none, createdAt := "t0",
    priceTotal := none, advancePaid := none, balanceAmount := none,
    paymentStatus := none, paymentMethod := none, notes := none,
    paymentHistory := none, cloudId := none, syncStatus := none,
    lastSyncedAt := none, remoteId := none, syncState := none,
    imageStorageUrls := none }

/-! ## C8: payment derivation -/

/-- C8: for all total ≥ 0 and paid ≥ 0, the derived balance equals
`max 0 (total - paid)` and the derived payment status follows the
stated rule — `Unpaid` if total = 0 or paid = 0, `Paid` if paid ≥ total,
`Partial` otherwise — both in the shared derivation helpers
(`calculateBalance`/`derivePaymentStatus`) and in the read-time
normalization (`normalizeOrder`). -/
theorem c8_payment_derivation (total paid : Int)
    (ht : 0 ≤ total) (hp : 0 ≤ paid) (r : RawOrder)
    (hr1 : r.priceTotal = some total) (hr2 : r.advancePaid = some paid) :
    calculateBalance total paid = max 0 (total - paid) ∧
    derivePaymentStatus total paid = specPaymentStatus total paid ∧
    (normalizeOrder r).balanceAmount = max 0 (total - paid) ∧
    (normalizeOrder r).paymentStatus = specPaymentStatus total paid := by
  have e1 : max (0 : Int) total = total := max_eq_right ht
  have e2 : max (0 : Int) paid = paid := max_eq_right hp
  refine ⟨rfl, rfl, ?_, ?_⟩
  · simp only [normalizeOrder, hr1, hr2, Option.getD_some, e1, e2]
  · simp only [normalizeOrder, hr1, hr2, Option.getD_some, e1, e2,
      specPaymentStatus]

/-- Witness for C8 at `(total, paid) = (100, 40)` on `sampleOrder`. -/
theorem c8_payment_derivation_witness :
    (0 : Int) ≤ 100 ∧ (0 : Int) ≤ 40 ∧
    calculateBalance 100 40 = max 0 (100 - 40) ∧
    derivePaymentStatus 100 40 = specPaymentStatus 100 40 ∧
    (normalizeOrder sampleOrder).balanceAmount = max 0 (100 - 40) ∧
    (normalizeOrder sampleOrder).paymentStatus = specPaymentStatus 100 40 := by
  have h := c8_payment_derivation 100 40 (by decide) (by decide) sampleOrder
    rfl rfl
  exact ⟨by decide, by decide, h.1, h.2.1, h.2.2.1, h.2.2.2⟩

/-! ## C10: STAFF sanitization removes only the five financial keys -/

/-- C10: for every order synced under the STAFF role, the sanitized
payload handed to the Firestore writer still carries the order's
`paymentHistory` array unchanged (so each entry keeps its
`amountChanged`, `resultingAdvancePaid` and `paymentMethod` fields) and
its `notes`, together with every other non-financial field; only the
five top-level financial keys are absent. -/
theorem c10_staff_payload_keeps_history (o : Order) (userId nowIso : String) :
    (buildFirestoreData (sanitizeOrderForSync o .STAFF) userId nowIso).paymentHistory
        = some o.paymentHistory ∧
    (buildFirestoreData (sanitizeOrderForSync o .STAFF) userId nowIso).notes
        = some o.notes ∧
    (buildFirestoreData (sanitizeOrderForSync o .STAFF) userId nowIso).orderId
        = some o.orderId ∧
    (buildFirestoreData (sanitizeOrderForSync o .STAFF) userId nowIso).customerName
        = some o.customerName ∧
    (buildFirestoreData (sanitizeOrderForSync o .STAFF) userId nowIso).bookingDate
        = some o.bookingDate ∧
    (buildFirestoreData (sanitizeOrderForSync o .STAFF) userId nowIso).deliveryDate
        = some o.deliveryDate ∧
    (buildFirestoreData (sanitizeOrderForSync o .STAFF) userId nowIso).measurements
        = some o.measurements ∧
    (buildFirestoreData (sanitizeOrderForSync o .STAFF) userId nowIso).productDetails
        = some o.productDetails ∧
    (buildFirestoreData (sanitizeOrderForSync o .STAFF) userId nowIso).status
        = some o.status ∧
    (buildFirestoreData (sanitizeOrderForSync o .STAFF) userId nowIso).deliveredAt
        = some o.deliveredAt ∧
    (buildFirestoreData (sanitizeOrderForSync o .STAFF) userId nowIso).createdAt
        = some o.createdAt ∧
    (buildFirestoreData (sanitizeOrderForSync o .STAFF) userId nowIso).imageUrls
        = some o.imageStorageUrls ∧
    (buildFirestoreData (sanitizeOrderForSync o .STAFF) userId nowIso).localId
        = o.id ∧
    Redacted (buildFirestoreData (sanitizeOrderForSync o .STAFF) userId nowIso) := by
  exact ⟨rfl, rfl, rfl, rfl, rfl, rfl, rfl, rfl, rfl, rfl, rfl, rfl, rfl,
    rfl, rfl, rfl, rfl, rfl⟩

/-! ## C5: create-time validation lives in the screen, not the repository -/

/-- C5 counterexample: the repository's `createOrder` persists a record
whose paid amount (200) exceeds its total (100) and whose customer name
trims to empty, returning success instead of a `ValidationError`. -/
theorem c5_counterexample :
    invalidCreateInput.advancePaid = some 200 ∧
    invalidCreateInput.priceTotal = some 100 ∧
    jsTrim invalidCreateInput.customerName = "" ∧
    createOrder [] invalidCreateInput =
      .ok [{ invalidCreateInput with id := some 1 }] := by
  refine ⟨rfl, rfl, by decide, rfl⟩

/-- The fresh auto-increment key is never already present. -/
theorem findOrder_nextOrderId (st : OrderStore) :
    findOrder st (nextOrderId st) = none := by
  have hle : ∀ x ∈ st.filterMap (fun r => r.id),
      x ≤ (st.filterMap (fun r => r.id)).foldr max 0 := by
    generalize st.filterMap (fun r => r.id) = l
    induction l with
    | nil => simp
    | cons a l ih =>
      intro x hx
      rcases List.mem_cons.mp hx with h | h
      · subst h
        simp only [List.foldr_cons]
        omega
      · have := ih x h
        simp only [List.foldr_cons]
        omega
  unfold findOrder
  by_contra h
  have h2 : (st.find? (fun r => r.id = some (nextOrderId st))).isSome := by
    exact Option.ne_none_iff_isSome.mp h
  rw [List.find?_isSome] at h2
  obtain ⟨r, hr, hid⟩ := h2
  have hid' : r.id = some (nextOrderId st) := of_decide_eq_true hid
  have hmem : nextOrderId st ∈ st.filterMap (fun r => r.id) :=
    List.mem_filterMap.mpr ⟨r, hr, hid'⟩
  have := hle _ hmem
  unfold nextOrderId at this
  omega

/-- C5 amended: the repository's create operation performs no
validation and persists whatever it is given; the refusal lives in the
New Order screen's submit handler, which reports an error and persists
nothing when a required text field is empty after trimming or when, for
a role that may edit financials, the paid amount exceeds the total. -/
theorem c5_amended (perms : Permissions) (form : NewOrderForm)
    (nowMs : String) (st : OrderStore) :
    (jsTrim form.customerName = "" →
      handleSubmit perms form nowMs st = .error "Customer name is required") ∧
    (jsTrim form.measurements = "" → jsTrim form.customerName ≠ "" →
      form.bookingDate ≠ none → form.deliveryDate ≠ none →
      handleSubmit perms form nowMs st = .error "Measurements are required") ∧
    (perms.canEditFinancials = true →
      form.advancePaidInput > form.priceTotalInput →
      jsTrim form.customerName ≠ "" → form.bookingDate ≠ none →
      form.deliveryDate ≠ none → jsTrim form.measurements ≠ "" →
      jsTrim form.productDetails ≠ "" →
      handleSubmit perms form nowMs st = .error "Please fix pricing errors") ∧
    (∀ r : RawOrder, r.id = none →
      createOrder st r = .ok (st ++ [{ r with id := some (nextOrderId st) }])) := by
  refine ⟨?_, ?_, ?_, ?_⟩
  · intro h
    simp [handleSubmit, h]
  · intro h hc hb hd
    simp [handleSubmit, h, hc, hb, hd]
  · intro hperm hpaid hc hb hd hm hp
    unfold handleSubmit
    rw [if_neg hc, if_neg hb, if_neg hd, if_neg hm, if_neg hp, if_pos]
    refine ⟨hperm, Or.inr ?_⟩
    simp [validatePricing, hperm, hpaid]
  · intro r hr
    simp [createOrder, hr, findOrder_nextOrderId]

/-- Witness for C5 amended: all four parts at concrete inputs. -/
theorem c5_amended_witness :
    (handleSubmit (getPermissions .ADMIN)
        { customerName := " ", bookingDate := some "b",
          deliveryDate := some "d", measurements := "m",
          productDetails := "p", priceTotalInput := 100,
          advancePaidInput := 0, paymentMethod := "Cash", notes := "" }
        "1000" [] = .error "Customer name is required") ∧
    (handleSubmit (getPermissions .ADMIN)
        { customerName := "c", bookingDate := some "b",
          deliveryDate := some "d", measurements := " ",
          productDetails := "p", priceTotalInput := 100,
          advancePaidInput := 0, paymentMethod := "Cash", notes := "" }
        "1000" [] = .error "Measurements are required") ∧
    (handleSubmit (getPermissions .ADMIN)
        { customerName := "c", bookingDate := some "b",
          deliveryDate := some "d", measurements := "m",
          productDetails := "p", priceTotalInput := 100,
          advancePaidInput := 200, paymentMethod := "Cash", notes := "" }
        "1000" [] = .error "Please fix pricing errors") ∧
    (createOrder [] invalidCreateInput =
      .ok [{ invalidCreateInput with id := some 1 }]) := by
  refine ⟨?_, ?_, ?_, ?_⟩
  · exact (c5_amended (getPermissions .ADMIN) _ "1000" []).1 (by decide)
  · exact (c5_amended (getPermissions .ADMIN) _ "1000" []).2.1 (by decide)
      (by decide) (by decide) (by decide)
  · exact (c5_amended (getPermissions .ADMIN) _ "1000" []).2.2.1 rfl
      (by decide) (by decide) (by decide) (by decide) (by decide) (by decide)
  · exact (c5_amended (getPermissions .ADMIN)
      { customerName := "c", bookingDate := some "b",
        deliveryDate := some "d", measurements := "m",
        productDetails := "p", priceTotalInput := 100,
        advancePaidInput := 0, paymentMethod := "Cash", notes := "" }
      "1000" []).2.2.2 invalidCreateInput rfl

/-! ## C9: the migration chain stops at version 3 -/

/-- C9 counterexample: the store's schema version is 3 (there are no
v4/v5 migration steps), and migrating a v1 record leaves `syncStatus`
and `cloudId` absent from the stored record rather than backfilled with
`'pending'`/null. -/
theorem c9_counterexample :
    dbVersion = 3 ∧
    (migrateStore 1 [v1Record]).map (fun r => (r.syncStatus, r.cloudId))
      = [(none, none)] := by
  exact ⟨rfl, rfl⟩

/-- C9 amended: opening the store against a v1 record applies the v2 and
v3 migration steps (the schema version is 3; no v4/v5 steps exist), so
the stored record afterwards has priceTotal = 0, advancePaid = 0,
paymentStatus = 'Unpaid' and paymentHistory = []; `syncStatus` and
`cloudId` stay absent in storage, and it is the repository's read-time
normalization that supplies syncStatus = 'pending' and cloudId = null. -/
theorem c9_amended (r : RawOrder)
    (h1 : r.priceTotal = none) (h2 : r.advancePaid = none)
    (h3 : r.paymentStatus = none) (h4 : r.paymentHistory = none)
    (h5 : r.syncStatus = none) (h6 : r.cloudId = none) :
    dbVersion = 3 ∧
    ∃ r', migrateStore 1 [r] = [r'] ∧
      r'.priceTotal = some 0 ∧ r'.advancePaid = some 0 ∧
      r'.paymentStatus = some "Unpaid" ∧ r'.paymentHistory = some [] ∧
      r'.syncStatus = none ∧ r'.cloudId = none ∧
      (normalizeOrder r').syncStatus = "pending" ∧
      (normalizeOrder r').cloudId = none := by
  refine ⟨rfl, migrateV3 (migrateV2 r), rfl, ?_⟩
  simp [migrateV2, migrateV3, normalizeOrder, jsStrOr, h1, h2, h3, h4, h5, h6]

/-- Witness for C9 amended at the concrete v1 record. -/
theorem c9_amended_witness :
    v1Record.priceTotal = none ∧
    (dbVersion = 3 ∧
    ∃ r', migrateStore 1 [v1Record] = [r'] ∧
      r'.priceTotal = some 0 ∧ r'.advancePaid = some 0 ∧
      r'.paymentStatus = some "Unpaid" ∧ r'.paymentHistory = some [] ∧
      r'.syncStatus = none ∧ r'.cloudId = none ∧
      (normalizeOrder r').syncStatus = "pending" ∧
      (normalizeOrder r').cloudId = none) := by
  exact ⟨rfl, c9_amended v1Record rfl rfl rfl rfl rfl rfl⟩

/-! ## Base64 lemmas for the attachment encoder -/

/-- The alphabet map is injectively invertible on six-bit values. -/
theorem charToSextet_sextetToChar :
    ∀ n < 64, charToSextet (sextetToChar n) = some n := by decide

/-- Alphabet characters are not whitespace. -/
theorem sextetToChar_not_ws : ∀ n < 64, isB64Ws (sextetToChar n) = false := by
  decide

/-- Alphabet characters are not the padding character. -/
theorem sextetToChar_ne_eq : ∀ n < 64, sextetToChar n ≠ '=' := by decide

/-- Alphabet characters are not commas. -/
theorem sextetToChar_ne_comma : ∀ n < 64, sextetToChar n ≠ ',' := by decide

/-- The padding block consists of `=` characters only. -/
theorem mem_b64Pad (c : Char) (n : Nat) (h : c ∈ b64Pad n) : c = '=' := by
  unfold b64Pad at h
  split at h <;> simp_all

/-- Sextets of bytes are six-bit values. -/
theorem encodeSextets_lt : ∀ (bs : Bytes), (∀ x ∈ bs, x < 256) →
    ∀ s ∈ encodeSextets bs, s < 64
  | [], _, s, hs => by simp [encodeSextets] at hs
  | [a], h, s, hs => by
      have ha := h a (by simp)
      simp only [encodeSextets, List.mem_cons, List.not_mem_nil,
        or_false] at hs
      rcases hs with h1 | h1 <;> omega
  | [a, b], h, s, hs => by
      have ha := h a (by simp)
      have hb := h b (by simp)
      simp only [encodeSextets, List.mem_cons, List.not_mem_nil,
        or_false] at hs
      rcases hs with h1 | h1 | h1 <;> omega
  | a :: b :: c :: rest, h, s, hs => by
      have ha := h a (by simp)
      have hb := h b (by simp)
      have hc := h c (by simp)
      simp only [encodeSextets, List.mem_cons] at hs
      rcases hs with h1 | h1 | h1 | h1 | h1
      · omega
      · omega
      · omega
      · omega
      · exact encodeSextets_lt rest (fun x hx => h x (by simp [hx])) s h1

/-- Decoding the sextets of a byte list recovers the bytes. -/
theorem sextetsToBytes_encodeSextets : ∀ (bs : Bytes),
    (∀ x ∈ bs, x < 256) → sextetsToBytes (encodeSextets bs) = bs
  | [], _ => rfl
  | [a], h => by
      have ha := h a (by simp)
      show sextetsToBytes [a / 4, a % 4 * 16] = [a]
      simp only [sextetsToBytes, List.cons.injEq, and_true]
      omega
  | [a, b], h => by
      have ha := h a (by simp)
      have hb := h b (by simp)
      show sextetsToBytes [a / 4, a % 4 * 16 + b / 16, b % 16 * 4] = [a, b]
      simp only [sextetsToBytes, List.cons.injEq, and_true]
      refine ⟨by omega, by omega⟩
  | a :: b :: c :: rest, h => by
      have ha := h a (by simp)
      have hb := h b (by simp)
      have hc := h c (by simp)
      have ih := sextetsToBytes_encodeSextets rest
        (fun x hx => h x (by simp [hx]))
      show sextetsToBytes (a / 4 :: (a % 4 * 16 + b / 16) ::
        (b % 16 * 4 + c / 64) :: c % 64 :: encodeSextets rest) = a :: b :: c :: rest
      simp only [sextetsToBytes, ih, List.cons.injEq, and_true]
      refine ⟨by omega, by omega, by omega⟩

/-- Length of the sextet list in terms of the byte count. -/
theorem encodeSextets_length : ∀ bs : Bytes,
    (encodeSextets bs).length = bs.length / 3 * 4 +
      (if bs.length % 3 = 0 then 0 else bs.length % 3 + 1)
  | [] => by simp [encodeSextets]
  | [a] => by simp [encodeSextets]
  | [a, b] => by simp [encodeSextets]
  | a :: b :: c :: rest => by
      have ih := encodeSextets_length rest
      simp only [encodeSextets, List.length_cons, ih]
      split_ifs <;> omega

/-- Removing trailing padding from a padding-free list is the identity. -/
theorem dropTrailingEq_of_ne (l : List Char) (h : ∀ c ∈ l, c ≠ '=') :
    dropTrailingEq l = l := by
  unfold dropTrailingEq
  split
  · rename_i rest heq
    exfalso
    have hm : '=' ∈ l.reverse := by rw [heq]; simp
    exact h '=' (List.mem_reverse.mp hm) rfl
  · rename_i rest heq
    exfalso
    have hm : '=' ∈ l.reverse := by rw [heq]; simp
    exact h '=' (List.mem_reverse.mp hm) rfl
  · rfl

/-- Two trailing padding characters are removed. -/
theorem dropTrailingEq_two (l : List Char) :
    dropTrailingEq (l ++ ['=', '=']) = l := by
  unfold dropTrailingEq
  rw [List.reverse_append]
  simp

/-- A single trailing padding character after a non-padding character is
removed. -/
theorem dropTrailingEq_one (xs : List Char) (c : Char) (hc : c ≠ '=') :
    dropTrailingEq (xs ++ [c] ++ ['=']) = xs ++ [c] := by
  have hrev : (xs ++ [c] ++ ['=']).reverse = '=' :: c :: xs.reverse := by simp
  unfold dropTrailingEq
  rw [hrev]
  split
  · rename_i rest heq
    exact absurd (List.cons.inj ((List.cons.inj heq).2)).1 hc
  · rename_i rest heq
    rw [← (List.cons.inj heq).2]
    simp
  · rename_i h1 h2
    exact absurd rfl (h2 (c :: xs.reverse))

/-- Padding removal on an encoded byte sequence yields exactly the
sextet characters. -/
theorem strip_encode (bs : Bytes) (h : ∀ x ∈ bs, x < 256) :
    stripB64Pad (b64EncodeChars bs) = (encodeSextets bs).map sextetToChar := by
  have hlt := encodeSextets_lt bs h
  have hlen := encodeSextets_length bs
  have hne : ∀ c ∈ (encodeSextets bs).map sextetToChar, c ≠ '=' := by
    intro c hcm
    obtain ⟨s, hs, he⟩ := List.mem_map.mp hcm
    rw [← he]
    exact sextetToChar_ne_eq s (hlt s hs)
  unfold stripB64Pad b64EncodeChars
  rcases h3 : bs.length % 3 with _ | k
  · have hpad : b64Pad bs.length = [] := by simp [b64Pad, h3]
    rw [hpad, List.append_nil]
    have hm : ((encodeSextets bs).map sextetToChar).length % 4 = 0 := by
      rw [List.length_map, hlen, h3]
      simp
    rw [if_pos hm]
    exact dropTrailingEq_of_ne _ hne
  · rcases k with _ | k
    · have hpad : b64Pad bs.length = ['=', '='] := by simp [b64Pad, h3]
      rw [hpad]
      have hm : ((encodeSextets bs).map sextetToChar ++ ['=', '=']).length % 4
          = 0 := by
        rw [List.length_append, List.length_map, hlen, h3]
        simp
        omega
      rw [if_pos hm]
      exact dropTrailingEq_two _
    · rcases k with _ | k
      · have hpad : b64Pad bs.length = ['='] := by simp [b64Pad, h3]
        rw [hpad]
        have hlen2 : ((encodeSextets bs).map sextetToChar).length
            = bs.length / 3 * 4 + 3 := by
          rw [List.length_map, hlen, h3]
          simp
        have hnil : (encodeSextets bs).map sextetToChar ≠ [] := by
          intro he
          rw [he] at hlen2
          simp at hlen2
        rcases List.eq_nil_or_concat ((encodeSextets bs).map sextetToChar)
          with he | ⟨ys, c, hys⟩
        · exact (hnil he).elim
        · rw [List.concat_eq_append] at hys
          have hc : c ≠ '=' := hne c (by rw [hys]; simp)
          rw [hys]
          have hm : (ys ++ [c] ++ ['=']).length % 4 = 0 := by
            have hl : (ys ++ [c]).length = bs.length / 3 * 4 + 3 := by
              rw [← hys, hlen2]
            rw [List.length_append, hl, List.length_singleton]
            omega
          rw [if_pos hm]
          exact dropTrailingEq_one ys c hc
      · exfalso
        have := Nat.mod_lt bs.length (show 0 < 3 by decide)
        omega

/-- The sextet characters decode back to the sextets. -/
theorem mapM_charToSextet (sx : List Nat) (h : ∀ s ∈ sx, s < 64) :
    (sx.map sextetToChar).mapM charToSextet = some sx := by
  induction sx with
  | nil => rfl
  | cons s sx ih =>
    rw [List.map_cons, List.mapM_cons,
      charToSextet_sextetToChar s (h s (by simp)),
      ih (fun x hx => h x (by simp [hx]))]
    rfl

/-- The forgiving-base64 decoder inverts the encoder on bytes. -/
theorem atob_b64EncodeChars (bs : Bytes) (h : ∀ x ∈ bs, x < 256) :
    atob (b64EncodeChars bs) = .ok bs := by
  have hlt := encodeSextets_lt bs h
  have hfil : (b64EncodeChars bs).filter (fun c => !(isB64Ws c))
      = b64EncodeChars bs := by
    rw [List.filter_eq_self]
    intro c hc
    rcases List.mem_append.mp hc with hm | hm
    · obtain ⟨s, hs, he⟩ := List.mem_map.mp hm
      rw [← he]
      simp [sextetToChar_not_ws s (hlt s hs)]
    · rw [mem_b64Pad c bs.length hm]
      decide
  have hmod : ((encodeSextets bs).map sextetToChar).length % 4 ≠ 1 := by
    rw [List.length_map, encodeSextets_length bs]
    split_ifs <;> omega
  unfold atob
  simp only [hfil, strip_encode bs h]
  rw [if_neg hmod, mapM_charToSextet _ hlt]
  show Except.ok (sextetsToBytes (encodeSextets bs)) = _
  rw [sextetsToBytes_encodeSextets bs h]

/-- No comma appears in an encoded byte sequence. -/
theorem comma_not_mem_encode (bs : Bytes) (h : ∀ x ∈ bs, x < 256) :
    ',' ∉ b64EncodeChars bs := by
  intro hc
  rcases List.mem_append.mp hc with hm | hm
  · obtain ⟨s, hs, he⟩ := List.mem_map.mp hm
    exact sextetToChar_ne_comma s (encodeSextets_lt bs h s hs) he
  · have := mem_b64Pad ',' bs.length hm
    simp at this

/-! ## Split lemmas for the data-URL decoder -/

/-- `split` never produces an empty part list. -/
theorem splitOnChar_ne_nil (sep : Char) (l : List Char) :
    splitOnChar sep l ≠ [] := by
  cases l with
  | nil => simp [splitOnChar]
  | cons c rest =>
    by_cases hc : c = sep
    · simp [splitOnChar, hc]
    · simp only [splitOnChar, if_neg hc]
      cases h : splitOnChar sep rest <;> simp

/-- `split` on a separator-free list returns that list alone. -/
theorem splitOnChar_not_mem (sep : Char) (l : List Char) (h : sep ∉ l) :
    splitOnChar sep l = [l] := by
  induction l with
  | nil => rfl
  | cons c rest ih =>
    have hc : ¬(c = sep) := fun e => h (by simp [e])
    have hrest : sep ∉ rest := fun e => h (by simp [e])
    simp only [splitOnChar, if_neg hc, ih hrest]

/-- `split` across the first separator occurrence. -/
theorem splitOnChar_append (sep : Char) (a b : List Char) (ha : sep ∉ a) :
    splitOnChar sep (a ++ sep :: b) = a :: splitOnChar sep b := by
  induction a with
  | nil => simp [splitOnChar]
  | cons c rest ih =>
    have hc : ¬(c = sep) := fun e => ha (by simp [e])
    have hrest : sep ∉ rest := fun e => ha (by simp [e])
    simp only [List.cons_append, splitOnChar, if_neg hc, List.append_eq,
      ih hrest]

/-- Behavior of the decoder on an input with exactly one comma: the MIME
type comes from the head (defaulting when the marker is missing) and the
result is the base64 decoding of the tail. -/
theorem dataUrlToBlobCore_split (pre payload : List Char)
    (hpre : ',' ∉ pre) (hpay : ',' ∉ payload) :
    dataUrlToBlobCore (pre ++ ',' :: payload) =
      match atob payload with
      | .error e => .error e
      | .ok bs => .ok { type := String.mk (defaultedMime pre), bytes := bs } := by
  unfold dataUrlToBlobCore
  rw [splitOnChar_append ',' pre payload hpre,
    splitOnChar_not_mem ',' payload hpay]
  rfl

/-! ## C6: decode failure behavior -/

/-- C6 counterexample: a local representation with no MIME marker is not
rejected — `dataUrlToBlob` substitutes the default type `image/jpeg` and
returns a blob, instead of failing with a `DecodeError`. -/
theorem c6_counterexample :
    extractMime "hello".data = none ∧
    dataUrlToBlob "hello,QUJD"
      = Except.ok ({ type := "image/jpeg", bytes := [65, 66, 67] } : Blob) := by
  exact ⟨rfl, rfl⟩

/-- C6 amended: the decode operation fails (with `InvalidCharacterError`)
exactly on an invalid base64 payload; a missing MIME marker alone does
not make it fail — the MIME type defaults to `image/jpeg` and the
payload is still decoded to a binary blob. -/
theorem c6_amended_decode_failure (pre payload : List Char)
    (hpre : ',' ∉ pre) (hpay : ',' ∉ payload) :
    (∀ e, atob payload = .error e →
      dataUrlToBlobCore (pre ++ ',' :: payload) = .error e) ∧
    (∀ bs, extractMime pre = none → atob payload = .ok bs →
      dataUrlToBlobCore (pre ++ ',' :: payload) =
        .ok { type := "image/jpeg", bytes := bs }) := by
  constructor
  · intro e he
    rw [dataUrlToBlobCore_split pre payload hpre hpay, he]
  · intro bs hmime he
    rw [dataUrlToBlobCore_split pre payload hpre hpay, he]
    show Except.ok ({ type := String.mk (defaultedMime pre), bytes := bs } : Blob)
      = Except.ok ({ type := "image/jpeg", bytes := bs } : Blob)
    rw [show defaultedMime pre = "image/jpeg".data by
      unfold defaultedMime; rw [hmime]]

/-- Witness for C6 amended: an invalid payload after a proper marker
fails, and a valid payload with no marker decodes with the default
type. -/
theorem c6_amended_decode_failure_witness :
    dataUrlToBlobCore ("data:image/png;base64".data ++ ',' :: "a!".data)
      = .error "InvalidCharacterError" ∧
    dataUrlToBlobCore ("hello".data ++ ',' :: "QUJD".data)
      = .ok { type := "image/jpeg", bytes := [65, 66, 67] } := by
  constructor
  · exact (c6_amended_decode_failure "data:image/png;base64".data "a!".data
      (by decide) (by decide)).1 "InvalidCharacterError" (by rfl)
  · exact (c6_amended_decode_failure "hello".data "QUJD".data
      (by decide) (by decide)).2 [65, 66, 67] (by rfl) (by rfl)

/-! ## C7: encode/decode round trip -/

/-- C7: for every byte sequence and every MIME type representable in the
encoding (one containing no comma), decoding the encoded local
representation returns exactly the original bytes. -/
theorem c7_roundtrip (bs : Bytes) (m : String)
    (hb : ∀ x ∈ bs, x < 256) (hm : ',' ∉ m.data) :
    ∃ mm, dataUrlToBlob (fileToDataUrl bs m) = .ok { type := mm, bytes := bs } := by
  have hshape : "data:".data ++ m.data ++ ";base64,".data ++ b64EncodeChars bs
      = ("data:".data ++ m.data ++ ";base64".data) ++
        ',' :: b64EncodeChars bs := by
    have h1 : (";base64,".data : List Char) = ";base64".data ++ [','] := rfl
    rw [h1]
    simp
  have hpre : ',' ∉ ("data:".data ++ m.data ++ ";base64".data) := by
    intro hc
    rcases List.mem_append.mp hc with hc2 | hc2
    · rcases List.mem_append.mp hc2 with hc3 | hc3
      · simp at hc3
      · exact hm hc3
    · simp at hc2
  refine ⟨String.mk (defaultedMime ("data:".data ++ m.data ++ ";base64".data)), ?_⟩
  unfold dataUrlToBlob fileToDataUrl
  show dataUrlToBlobCore ("data:".data ++ m.data ++ ";base64,".data ++
    b64EncodeChars bs) = _
  rw [hshape, dataUrlToBlobCore_split _ _ hpre (comma_not_mem_encode bs hb),
    atob_b64EncodeChars bs hb]

/-- Witness for C7 at a concrete image: four bytes, MIME `image/png`. -/
theorem c7_roundtrip_witness :
    ∃ mm, dataUrlToBlob (fileToDataUrl [0, 1, 255, 77] "image/png")
      = .ok { type := mm, bytes := [0, 1, 255, 77] } := by
  exact c7_roundtrip [0, 1, 255, 77] "image/png" (by decide) (by decide)

/-! ## Store-level lemmas for the sync pass -/

/-- Replacing the record under key `i` with a record carrying key `i`
preserves every stored key. -/
theorem putOrder_hasId (st : OrderStore) (i : Nat) (r : RawOrder)
    (hr : r.id = some i) (j : Nat) (hj : HasId st j) :
    HasId (putOrder st i r) j := by
  obtain ⟨x, hx, hxid⟩ := hj
  by_cases hxi : x.id = some i
  · have hji : j = i := by
      rw [hxi] at hxid
      exact (Option.some.inj hxid.symm)
    refine ⟨r, ?_, by rw [hr, hji]⟩
    exact List.mem_map.mpr ⟨x, hx, by simp [hxi]⟩
  · refine ⟨x, ?_, hxid⟩
    exact List.mem_map.mpr ⟨x, hx, by simp [hxi]⟩

/-- `updateOrder` succeeds on a stored key and preserves every stored
key. -/
theorem updateOrder_ok (st : OrderStore) (i : Nat) (u : OrderPatch)
    (nowMs : String) (h : HasId st i) :
    ∃ st', updateOrder st i u nowMs = .ok st' ∧
      (∀ j, HasId st j → HasId st' j) := by
  obtain ⟨r, hr, hrid⟩ := h
  have hfind : (findOrder st i).isSome := by
    unfold findOrder
    rw [List.find?_isSome]
    exact ⟨r, hr, by simp [hrid]⟩
  obtain ⟨r0, hr0⟩ := Option.isSome_iff_exists.mp hfind
  unfold updateOrder
  rw [hr0]
  refine ⟨_, rfl, ?_⟩
  intro j hj
  exact putOrder_hasId st i _ rfl j hj

/-- Processing an order for which every upload stage succeeds increments
the uploaded counter, appends no error, transmits exactly one payload,
and preserves every stored key. -/
theorem processOrder_success (env : SyncEnv) (userId : String)
    (userRole : Role) (st : OrderStore) (o : Order)
    (h : UploadSucceeds env userId userRole o)
    (hid : ∀ i, o.id = some i → HasId st i) :
    ∃ st' p, processOrder env userId userRole st o =
      { store := st', uploadedInc := 1, errs := [], sent := [p] } ∧
      (∀ j, HasId st j → HasId st' j) := by
  obtain ⟨helig, hgate, ⟨i, hoid, hi⟩, urls, rid, himg, hrec⟩ := h
  have hg : ¬(userRole = .STAFF ∧ canStaffSyncOrder o userId = false) := by
    rintro ⟨h1, h2⟩
    rw [hgate h1] at h2
    simp at h2
  have hg2 : ¬(userRole = .STAFF ∧
      canStaffSyncOrder { o with imageStorageUrls := urls } userId = false) := hg
  have hidt : jsNumTruthy o.id = true := by
    rw [hoid]
    simp [jsNumTruthy, hi]
  have hstep1b : ∃ st1,
      (if jsNumTruthy o.id ∧ urls.length > 0 then
        updateOrder st (o.id.getD 0) { imageStorageUrls := some urls } env.nowMs
      else .ok st) = .ok st1 ∧ (∀ j, HasId st j → HasId st1 j) := by
    by_cases hlen : urls.length > 0
    · rw [if_pos ⟨hidt, hlen⟩]
      rw [hoid]
      exact updateOrder_ok st i _ env.nowMs (hid i hoid)
    · rw [if_neg (by intro hc; exact hlen hc.2)]
      exact ⟨st, rfl, fun j hj => hj⟩
  obtain ⟨st1, hst1, hpres1⟩ := hstep1b
  have hcloud : syncOrderToCloud env userId userRole
      { o with imageStorageUrls := urls } =
      (.ok rid, some (buildFirestoreData
        (sanitizeOrderForSync { o with imageStorageUrls := urls } userRole)
        userId env.nowIso)) := by
    unfold syncOrderToCloud
    rw [if_neg hg2]
    simp only [hrec]
  obtain ⟨st2, hst2, hpres2⟩ := updateOrder_ok st1 i
    { remoteId := some (some rid), lastSyncedAt := some (some env.nowIso),
      syncState := some "synced" } env.nowMs (hpres1 i (hid i hoid))
  refine ⟨st2, buildFirestoreData
    (sanitizeOrderForSync { o with imageStorageUrls := urls } userRole)
    userId env.nowIso, ?_, fun j hj => hpres2 j (hpres1 j hj)⟩
  unfold processOrder
  rw [if_pos helig]
  unfold processEligibleOrder
  rw [if_neg hg, himg]
  simp only []
  rw [hst1]
  simp only []
  rw [hcloud]
  simp only []
  rw [if_pos hidt, hoid]
  simp only [Option.getD_some]
  rw [hst2]
  rfl

/-- Processing an order whose image upload throws leaves the store
untouched, uploads nothing, and appends exactly the image error followed
by the order error. -/
theorem processOrder_imgfail (env : SyncEnv) (userId : String)
    (userRole : Role) (st : OrderStore) (o : Order) (k : Nat) (emsg : String)
    (helig : (!jsStrTruthy o.remoteId || decide (o.syncState = "pending")) = true)
    (hgate : userRole = .STAFF → canStaffSyncOrder o userId = true)
    (himg : imagesStep env userId o.orderId o.images.enum o.imageStorageUrls
      = .error (k, emsg)) :
    processOrder env userId userRole st o =
      { store := st, uploadedInc := 0,
        errs := ["Failed to upload image " ++ toString k ++ " for order "
            ++ o.orderId ++ ": " ++ emsg,
          "Failed to sync order " ++ o.orderId ++ ": " ++ emsg],
        sent := [] } := by
  have hg : ¬(userRole = .STAFF ∧ canStaffSyncOrder o userId = false) := by
    rintro ⟨h1, h2⟩
    rw [hgate h1] at h2
    simp at h2
  unfold processOrder
  rw [if_pos helig]
  unfold processEligibleOrder
  rw [if_neg hg, himg]

/-- A run of fully-succeeding orders adds their count to the uploaded
counter, appends no errors, transmits one payload each, and preserves
every key of the reference store. -/
theorem foldl_syncStep_success (env : SyncEnv) (userId : String)
    (userRole : Role) (st0 : OrderStore) :
    ∀ (os : List Order) (acc : PassAcc),
    (∀ o ∈ os, UploadSucceeds env userId userRole o) →
    (∀ o ∈ os, ∀ i, o.id = some i → HasId st0 i) →
    (∀ j, HasId st0 j → HasId acc.store j) →
    ∃ st' ps, os.foldl (syncStep env userId userRole) acc =
      { store := st', uploaded := acc.uploaded + os.length,
        errors := acc.errors, sent := acc.sent ++ ps } ∧
      (∀ j, HasId st0 j → HasId st' j) ∧ ps.length = os.length
  | [], acc, _, _, hacc => ⟨acc.store, [], by simp, hacc, rfl⟩
  | o :: os, acc, hgood, hids, hacc => by
    obtain ⟨st1, p, hpo, hpres⟩ := processOrder_success env userId userRole
      acc.store o (hgood o (by simp))
      (fun i hi => hacc i (hids o (by simp) i hi))
    have hstep : syncStep env userId userRole acc o =
        { store := st1, uploaded := acc.uploaded + 1,
          errors := acc.errors, sent := acc.sent ++ [p] } := by
      unfold syncStep
      rw [hpo]
      simp
    obtain ⟨st', ps, hfold, hpres', hlen⟩ := foldl_syncStep_success env userId
      userRole st0 os
      { store := st1, uploaded := acc.uploaded + 1,
        errors := acc.errors, sent := acc.sent ++ [p] }
      (fun o' h' => hgood o' (by simp [h']))
      (fun o' h' => hids o' (by simp [h']))
      (fun j hj => hpres j (hacc j hj))
    rw [List.foldl_cons, hstep, hfold]
    refine ⟨st', p :: ps, ?_, hpres', by simp [hlen]⟩
    have h1 : acc.uploaded + 1 + os.length = acc.uploaded + (o :: os).length := by
      simp [List.length_cons]
      omega
    have h2 : (acc.sent ++ [p]) ++ ps = acc.sent ++ p :: ps := by simp
    rw [h1, h2]

/-! ## Redaction lemmas for STAFF passes -/

/-- A payload built from a STAFF-sanitized order carries no financial
key. -/
theorem redacted_build (o : Order) (userId nowIso : String) :
    Redacted (buildFirestoreData (sanitizeOrderForSync o .STAFF) userId nowIso) :=
  ⟨rfl, rfl, rfl, rfl, rfl⟩

/-- Every payload `syncOrderToCloud` hands to the record writer under
the STAFF role is redacted. -/
theorem syncOrderToCloud_sent_staff (env : SyncEnv) (userId : String)
    (o : Order) :
    ∀ p ∈ (syncOrderToCloud env userId .STAFF o).2.toList, Redacted p := by
  unfold syncOrderToCloud
  split
  · simp
  · rcases h : env.uploadRecord
      (buildFirestoreData (sanitizeOrderForSync o .STAFF) userId env.nowIso)
      (remoteIdArg o) with e | rid <;>
    · simp only [h]
      intro p hp
      simp only [Option.toList_some, List.mem_singleton] at hp
      subst hp
      exact redacted_build o userId env.nowIso

/-- Equation form of the previous lemma. -/
theorem syncOrderToCloud_snd_staff (env : SyncEnv) (userId : String)
    (o : Order) (res : Except String String) (pl : Option FirestoreData)
    (h : syncOrderToCloud env userId .STAFF o = (res, pl)) :
    ∀ p ∈ pl.toList, Redacted p := by
  have h2 := syncOrderToCloud_sent_staff env userId o
  rw [h] at h2
  exact h2

/-- Every payload one order contributes to a STAFF pass is redacted. -/
theorem processOrder_sent_staff (env : SyncEnv) (userId : String)
    (st : OrderStore) (o : Order) :
    ∀ p ∈ (processOrder env userId .STAFF st o).sent, Redacted p := by
  unfold processOrder processEligibleOrder
  repeat' split
  all_goals intro p hp
  all_goals try simp only [] at hp
  all_goals repeat' split at hp
  all_goals first
    | (rename_i heq
       exact syncOrderToCloud_snd_staff env userId _ _ _ heq p hp)
    | (rename_i heq _x
       exact syncOrderToCloud_snd_staff env userId _ _ _ heq p hp)
    | (rename_i heq _x _y
       exact syncOrderToCloud_snd_staff env userId _ _ _ heq p hp)
    | (rename_i heq _x _y _z
       exact syncOrderToCloud_snd_staff env userId _ _ _ heq p hp)
    | simp at hp

/-- Redaction is preserved along a STAFF pass. -/
theorem foldl_sent_staff (env : SyncEnv) (userId : String) :
    ∀ (os : List Order) (acc : PassAcc),
    (∀ p ∈ acc.sent, Redacted p) →
    ∀ p ∈ (os.foldl (syncStep env userId .STAFF) acc).sent, Redacted p
  | [], acc, hacc => hacc
  | o :: os, acc, hacc => by
    rw [List.foldl_cons]
    refine foldl_sent_staff env userId os _ ?_
    intro p hp
    unfold syncStep at hp
    simp only [] at hp
    rcases List.mem_append.mp hp with h | h
    · exact hacc p h
    · exact processOrder_sent_staff env userId acc.store o p h

/-- An image index with a recorded URL is skipped without consulting the
uploader, for any uploader behavior. -/
theorem imagesStep_skip_all (env : SyncEnv) (userId orderCode : String) :
    ∀ (ps : List (Nat × String)) (urls : List (Option String)),
    (∀ pair ∈ ps, jsStrTruthy (urls.getD pair.1 none) = true) →
    imagesStep env userId orderCode ps urls = .ok urls
  | [], _, _ => rfl
  | (i, img) :: rest, urls, hall => by
    unfold imagesStep
    rw [if_pos (hall (i, img) (by simp))]
    exact imagesStep_skip_all env userId orderCode rest urls
      (fun q hq => hall q (by simp [hq]))

/-! ## C1: the sync state never reaches `synced` -/

/-- C1 (code bug): a pass whose record upload fully succeeds writes the
remote identifier and the timestamp back, but the stored sync state ends
as `'pending'`, not `'synced'` — the repository's `updateOrder` places
`syncStatus: 'pending', syncState: 'pending'` after the spread of the
caller's updates, clobbering the `syncState: 'synced'` that the
orchestrator passes in step 1d. -/
theorem c1_unreachable_synced_state :
    (syncOrders envAllOk "u" .ADMIN [sampleOrder]).result =
      { success := true, uploaded := 1, downloaded := 0, errors := [] } ∧
    (syncOrders envAllOk "u" .ADMIN [sampleOrder]).store =
      [{ sampleOrder with
          remoteId := some (some "cloud1")
          lastSyncedAt := some (some "T1")
          syncStatus := some "pending"
          syncState := some "pending" }] := by
  exact ⟨rfl, rfl⟩

/-! ## C2: per-order error isolation -/

/-- C2 counterexample: with two eligible orders where order `A`'s single
image upload throws, the pass reports TWO errors referencing order `A`
(the image error and the order error), not exactly one; the other order
is still uploaded. -/
theorem c2_counterexample :
    (syncOrders envImageFailA "u" .ADMIN
      [sampleOrderOneImage, sampleOrderB]).result =
      { success := false, uploaded := 1, downloaded := 0,
        errors := ["Failed to upload image 0 for order A: network down",
          "Failed to sync order A: network down"] } := by
  rfl

/-- C2 amended: in one sync pass over N eligible orders where exactly
one order k throws during image upload, the other N−1 orders are
uploaded (the pass's uploaded count is N−1 and one payload is
transmitted per order), the pass's error list contains exactly TWO
errors — the image error and the order error, both referencing order
k's human-facing code — and order k's failure does not abort processing
of the remaining orders (the pass's success flag is false). -/
theorem c2_amended_error_isolation (env : SyncEnv) (userId : String)
    (userRole : Role) (st : OrderStore) (pre post : List Order) (bad : Order)
    (k : Nat) (emsg : String)
    (hsnap : st.map normalizeOrder = pre ++ bad :: post)
    (hgood : ∀ o ∈ pre ++ post, UploadSucceeds env userId userRole o)
    (hids : ∀ o ∈ pre ++ post, ∀ i, o.id = some i → HasId st i)
    (hbadelig : (!jsStrTruthy bad.remoteId
      || decide (bad.syncState = "pending")) = true)
    (hbadgate : userRole = .STAFF → canStaffSyncOrder bad userId = true)
    (hbadimg : imagesStep env userId bad.orderId bad.images.enum
      bad.imageStorageUrls = .error (k, emsg)) :
    (syncOrders env userId userRole st).result.uploaded
        = pre.length + post.length ∧
    (syncOrders env userId userRole st).result.errors =
      ["Failed to upload image " ++ toString k ++ " for order "
          ++ bad.orderId ++ ": " ++ emsg,
        "Failed to sync order " ++ bad.orderId ++ ": " ++ emsg] ∧
    (syncOrders env userId userRole st).sent.length
        = pre.length + post.length ∧
    (syncOrders env userId userRole st).result.success = false := by
  obtain ⟨st1, ps1, hfold1, hpres1, hlen1⟩ :=
    foldl_syncStep_success env userId userRole st pre
      { store := st, uploaded := 0, errors := [], sent := [] }
      (fun o h => hgood o (List.mem_append.mpr (Or.inl h)))
      (fun o h => hids o (List.mem_append.mpr (Or.inl h)))
      (fun j hj => hj)
  have hstep2 : syncStep env userId userRole
      { store := st1, uploaded := 0 + pre.length, errors := [],
        sent := [] ++ ps1 } bad
      = { store := st1, uploaded := 0 + pre.length + 0,
          errors := [] ++ ["Failed to upload image " ++ toString k
              ++ " for order " ++ bad.orderId ++ ": " ++ emsg,
            "Failed to sync order " ++ bad.orderId ++ ": " ++ emsg],
          sent := ([] ++ ps1) ++ [] } := by
    unfold syncStep
    rw [processOrder_imgfail env userId userRole st1 bad k emsg hbadelig
      hbadgate hbadimg]
  obtain ⟨st2, ps2, hfold2, hpres2, hlen2⟩ :=
    foldl_syncStep_success env userId userRole st post
      { store := st1, uploaded := 0 + pre.length + 0,
        errors := [] ++ ["Failed to upload image " ++ toString k
            ++ " for order " ++ bad.orderId ++ ": " ++ emsg,
          "Failed to sync order " ++ bad.orderId ++ ": " ++ emsg],
        sent := ([] ++ ps1) ++ [] }
      (fun o h => hgood o (List.mem_append.mpr (Or.inr h)))
      (fun o h => hids o (List.mem_append.mpr (Or.inr h)))
      (fun j hj => hpres1 j hj)
  refine ⟨?_, ?_, ?_, ?_⟩ <;>
  · simp only [syncOrders, hsnap, List.foldl_append, hfold1, List.foldl_cons,
      hstep2, hfold2]
    simp [hlen1, hlen2]

/-- Witness for C2 amended at N = 2, k the first order. -/
theorem c2_amended_error_isolation_witness :
    (syncOrders envImageFailA "u" .ADMIN
        [sampleOrderOneImage, sampleOrderB]).result.uploaded = 1 ∧
    (syncOrders envImageFailA "u" .ADMIN
        [sampleOrderOneImage, sampleOrderB]).result.errors =
      ["Failed to upload image 0 for order A: network down",
        "Failed to sync order A: network down"] ∧
    (syncOrders envImageFailA "u" .ADMIN
        [sampleOrderOneImage, sampleOrderB]).sent.length = 1 ∧
    (syncOrders envImageFailA "u" .ADMIN
        [sampleOrderOneImage, sampleOrderB]).result.success = false := by
  have h := c2_amended_error_isolation envImageFailA "u" .ADMIN
    [sampleOrderOneImage, sampleOrderB]
    [] [normalizeOrder sampleOrderB] (normalizeOrder sampleOrderOneImage)
    0 "network down"
    rfl
    (by
      intro o hmem
      have ho : o = normalizeOrder sampleOrderB := by simpa using hmem
      subst ho
      refine ⟨by decide, ?_, ⟨2, rfl, by decide⟩, [], "cloud1", rfl, rfl⟩
      intro h
      exact nomatch h)
    (by
      intro o hmem j hj
      have ho : o = normalizeOrder sampleOrderB := by simpa using hmem
      subst ho
      have hj2 : j = 2 := by
        have h2 : (normalizeOrder sampleOrderB).id = some 2 := rfl
        rw [h2] at hj
        exact (Option.some.inj hj).symm
      subst hj2
      decide)
    (by decide)
    (by intro h; exact nomatch h)
    rfl
  simpa using h

/-! ## C3: STAFF uploads never transmit financial keys -/

/-- C3: every record payload transmitted during a sync pass running
under the STAFF role contains none of the keys `priceTotal`,
`advancePaid`, `balanceAmount`, `paymentStatus`, `paymentMethod`. -/
theorem c3_staff_redaction (env : SyncEnv) (userId : String) (st : OrderStore)
    (p : FirestoreData) (hp : p ∈ (syncOrders env userId .STAFF st).sent) :
    p.priceTotal = none ∧ p.advancePaid = none ∧ p.balanceAmount = none ∧
    p.paymentStatus = none ∧ p.paymentMethod = none := by
  exact foldl_sent_staff env userId (st.map normalizeOrder)
    { store := st, uploaded := 0, errors := [], sent := [] }
    (by simp) p hp

/-- Witness for C3: a STAFF pass over one unsynced order transmits a
payload, and that payload is redacted. -/
theorem c3_staff_redaction_witness :
    ∃ p, p ∈ (syncOrders envAllOk "u" .STAFF [sampleOrder]).sent ∧
      (p.priceTotal = none ∧ p.advancePaid = none ∧ p.balanceAmount = none ∧
       p.paymentStatus = none ∧ p.paymentMethod = none) := by
  refine ⟨buildFirestoreData
    (sanitizeOrderForSync (normalizeOrder sampleOrder) .STAFF) "u" "T1",
    ?_, ?_⟩
  · decide
  · exact c3_staff_redaction envAllOk "u" [sampleOrder] _ (by decide)

/-! ## C4: partial image URLs are not persisted on mid-order failure -/

/-- C4 counterexample: for an order with two images where the first
upload succeeds and the second throws, nothing is persisted — the stored
record still has no `imageStorageUrls` — even though an image upload of
that pass succeeded, contradicting "persisted as soon as any image
succeeds". -/
theorem c4_counterexample :
    envImageFailSecond.uploadImage
        { type := "image/png", bytes := [65, 66, 67] } "u" "A" 0
      = { success := true, url := some "url0", error := none } ∧
    (syncOrders envImageFailSecond "u" .ADMIN [sampleOrderTwoImages]).store
      = [sampleOrderTwoImages] ∧
    sampleOrderTwoImages.imageStorageUrls = none := by
  exact ⟨rfl, rfl, rfl⟩

/-- C4 amended: the URL list is written back to the local record only
after every image of the order has uploaded, just before the record
upload — so when the record upload then fails, the URLs are already
persisted locally and the order remains pending and un-uploaded; and a
retry pass skips every image index that already has a recorded URL,
whatever the uploader does.  If an image upload fails mid-order, the
URLs gathered in that pass are discarded, not persisted (see the
counterexample). -/
theorem c4_amended_url_persistence :
    (∀ (env : SyncEnv) (userId : String) (r : RawOrder) (i : Nat)
        (urls : List (Option String)) (e : String),
      ((!jsStrTruthy (normalizeOrder r).remoteId
        || decide ((normalizeOrder r).syncState = "pending")) = true) →
      r.id = some i → i ≠ 0 →
      imagesStep env userId (normalizeOrder r).orderId
          (normalizeOrder r).images.enum (normalizeOrder r).imageStorageUrls
        = .ok urls →
      urls.length > 0 →
      env.uploadRecord
          (buildFirestoreData (sanitizeOrderForSync
            { normalizeOrder r with imageStorageUrls := urls } .ADMIN)
            userId env.nowIso)
          (remoteIdArg { normalizeOrder r with imageStorageUrls := urls })
        = .error e →
      ∃ r', (syncOrders env userId .ADMIN [r]).store = [r'] ∧
        r'.imageStorageUrls = some urls ∧ r'.syncStatus = some "pending" ∧
        r'.remoteId = r.remoteId ∧
        (syncOrders env userId .ADMIN [r]).result.uploaded = 0) ∧
    (∀ (env : SyncEnv) (userId orderCode : String) (images : List String)
        (urls : List (Option String)),
      (∀ pair ∈ images.enum, jsStrTruthy (urls.getD pair.1 none) = true) →
      imagesStep env userId orderCode images.enum urls = .ok urls) := by
  constructor
  · intro env userId r i urls e helig hid hi himg hlen hrec
    obtain ⟨o, ho⟩ : ∃ o, o = normalizeOrder r := ⟨_, rfl⟩
    rw [← ho] at helig himg hrec
    simp only [] at hrec
    have hoid : o.id = some i := by rw [ho]; exact hid
    have hidt : jsNumTruthy o.id = true := by
      rw [hoid]
      simp [jsNumTruthy, hi]
    have hfind : findOrder [r] i = some r := by
      unfold findOrder
      rw [List.find?_cons_of_pos _ (by simp [hid])]
    have hupd : updateOrder [r] i { imageStorageUrls := some urls } env.nowMs
        = .ok [{ r with
            id := some i
            imageStorageUrls := some urls
            syncStatus := some "pending"
            syncState := some "pending" }] := by
      unfold updateOrder
      rw [hfind]
      unfold putOrder
      simp [hid]
    have hcloud : syncOrderToCloud env userId .ADMIN
        { o with imageStorageUrls := urls } =
        (.error ("Failed to upload order to Firestore: " ++ e),
          some (buildFirestoreData (sanitizeOrderForSync
            { o with imageStorageUrls := urls } .ADMIN)
            userId env.nowIso)) := by
      unfold syncOrderToCloud
      rw [if_neg (by rintro ⟨h1, _⟩; exact absurd h1 (by decide))]
      simp only [hrec]
    rw [hoid] at hcloud
    refine ⟨{ r with
        id := some i
        imageStorageUrls := some urls
        syncStatus := some "pending"
        syncState := some "pending" }, ?_, rfl, rfl, rfl, ?_⟩
    all_goals (
      unfold syncOrders
      simp only [List.map_cons, List.map_nil, List.foldl_cons, List.foldl_nil]
      rw [← ho]
      unfold syncStep processOrder
      rw [if_pos helig]
      unfold processEligibleOrder
      rw [if_neg (by rintro ⟨h1, _⟩; exact absurd h1 (by decide)), himg]
      simp only []
      rw [if_pos ⟨hidt, hlen⟩, hoid]
      simp only [Option.getD_some]
      rw [hupd]
      simp only []
      rw [hcloud])
    all_goals rfl
  · exact fun env userId orderCode images urls h =>
      imagesStep_skip_all env userId orderCode images.enum urls h

/-- Witness for C4 amended: both parts at concrete inputs — a two-image
order whose images upload but whose record write fails ends with the
URLs persisted and the order not uploaded; and a loop over images whose
indices all have recorded URLs succeeds without uploading. -/
theorem c4_amended_url_persistence_witness :
    (∃ r', (syncOrders envRecordFail "u" .ADMIN [sampleOrderTwoImages]).store
        = [r'] ∧
      r'.imageStorageUrls = some [some "url0", some "url1"] ∧
      r'.syncStatus = some "pending" ∧
      r'.remoteId = sampleOrderTwoImages.remoteId ∧
      (syncOrders envRecordFail "u" .ADMIN
        [sampleOrderTwoImages]).result.uploaded = 0) ∧
    imagesStep envRecordFail "u" "A" ["imgA", "imgB"].enum
      [some "u0", some "u1"] = .ok [some "u0", some "u1"] := by
  constructor
  · exact c4_amended_url_persistence.1 envRecordFail "u" sampleOrderTwoImages
      1 [some "url0", some "url1"] "firestore down" (by decide) rfl
      (by decide) rfl (by decide) rfl
  · exact c4_amended_url_persistence.2 envRecordFail "u" "A" ["imgA", "imgB"]
      [some "u0", some "u1"] (by decide)

end Phoenix
